import Mathlib

/-!
Verification of the prompt-butler record store and its frontend against the
specification. Frontend validation, URL building, list filtering and cache
hooks are embedded from the TypeScript sources; the backend record store and
document codec, whose sources are not part of this repository snapshot, are
modelled from the specification where indicated.
-/

namespace PromptButler

/-! Character classes of the identifier regular expressions in
`frontend/src/schemas/prompt.ts`: NAME_REGEX and GROUP_REGEX both use the
class [a-zA-Z0-9_-]. -/

def isIdentChar (c : Char) : Bool :=
  (('a' ≤ c) && (c ≤ 'z')) || (('A' ≤ c) && (c ≤ 'Z')) ||
  (('0' ≤ c) && (c ≤ '9')) || (c == '_') || (c == '-')

def PROMPT_MAX_LENGTH : Nat := 50000

/-- Embeds the `name` field validator of `promptCreateSchema`
(schemas/prompt.ts): `z.string().min(1).regex(NAME_REGEX)` where
NAME_REGEX has one-or-more characters of the class. -/
def nameFieldAccepted (s : String) : Bool :=
  (1 ≤ s.length) && s.data.all isIdentChar

/-- Embeds the `group` field validator of `basePromptSchema`
(schemas/prompt.ts): `z.string().regex(GROUP_REGEX).optional()` where
GROUP_REGEX is a star over the class, so the empty string matches. -/
def groupFieldAccepted (g : Option String) : Bool :=
  match g with
  | none => true
  | some s => s.data.all isIdentChar

/-- Embeds the `system_prompt` validator of `basePromptSchema`
(schemas/prompt.ts): `z.string().min(1).max(PROMPT_MAX_LENGTH)`. -/
def systemPromptAccepted (s : String) : Bool :=
  (1 ≤ s.length) && (s.length ≤ PROMPT_MAX_LENGTH)

/-- Embeds the `user_prompt` validator of `basePromptSchema`
(schemas/prompt.ts): `z.string().max(PROMPT_MAX_LENGTH).optional()`. -/
def userPromptAccepted (u : Option String) : Bool :=
  match u with
  | none => true
  | some s => s.length ≤ PROMPT_MAX_LENGTH

/-- Embeds the `user_prompt` validator of `promptFormSchema`
(schemas/prompt.ts): a required string with `max(PROMPT_MAX_LENGTH)`. -/
def formUserPromptAccepted (s : String) : Bool :=
  s.length ≤ PROMPT_MAX_LENGTH

theorem string_eq_empty_iff_data (s : String) : s = "" ↔ s.data = [] := by
  constructor
  · intro h; subst h; rfl
  · intro h; cases s with
    | mk d => simp only at h; simp [h]

/-! Model of the JavaScript string `trim()` used by the frontend: it removes
whitespace from both ends. Character lists keep every definition
kernel-computable. -/

def trimChars (cs : List Char) : List Char :=
  ((cs.dropWhile Char.isWhitespace).reverse.dropWhile Char.isWhitespace).reverse

def jsTrim (s : String) : String := String.mk (trimChars s.data)

/-! Record types of `frontend/src/types/prompt.ts`. -/

/-- Embeds the `Prompt` interface of types/prompt.ts. -/
structure Prompt where
  name : String
  description : String
  system_prompt : String
  user_prompt : String
  tags : List String
  group : String
  deriving DecidableEq, Repr

/-- Embeds the `PromptUpdate` interface of types/prompt.ts: every field is
optional, there is no name field, and group is present (optional). -/
structure PromptUpdate where
  description : Option String := none
  system_prompt : Option String := none
  user_prompt : Option String := none
  tags : Option (List String) := none
  group : Option String := none
  deriving DecidableEq, Repr

/-! Embedding of `frontend/src/components/TagInput.tsx`. -/

/-- Embeds `addTag` of TagInput.tsx: trims the text, then appends it only
when it is non-empty and not already present. -/
def addTag (tags : List String) (tagText : String) : List String :=
  let trimmedTag := jsTrim tagText
  if trimmedTag ≠ "" ∧ trimmedTag ∉ tags then tags ++ [trimmedTag] else tags

/-- Embeds `removeTag` of TagInput.tsx. -/
def removeTag (tags : List String) (tagToRemove : String) : List String :=
  tags.filter (fun tag => tag ≠ tagToRemove)

/-! Embedding of `frontend/src/pages/PromptList.tsx`. -/

/-- Embeds `filteredPrompts` of PromptList.tsx: the JavaScript test
`!selectedGroup` is true exactly on the empty string, and `!p.group`
likewise. -/
def filteredPrompts (prompts : List Prompt) (selectedGroup : String) :
    List Prompt :=
  if selectedGroup = "" then prompts
  else if selectedGroup = "(root)" then prompts.filter (fun p => p.group = "")
  else prompts.filter (fun p => p.group = selectedGroup)

/-! Embedding of `frontend/src/services/api.ts`. -/

def API_BASE_URL : String := "http://localhost:8000"

/-- Embeds the JavaScript truthiness test applied to a value of type
`string | undefined`: only `undefined` and the empty string are falsy. -/
def groupTruthy (g : Option String) : Bool :=
  match g with
  | none => false
  | some s => !(s == "")

/-- Embeds the URL built by `promptApi.listPrompts` (api.ts); `enc` stands
for `encodeURIComponent`, which the statements treat as a parameter. -/
def listPromptsUrl (enc : String → String) (group : Option String) : String :=
  if groupTruthy group then
    API_BASE_URL ++ "/api/prompts?group=" ++ enc (group.getD "")
  else
    API_BASE_URL ++ "/api/prompts"

/-- Embeds the query-string computation shared by `promptApi.getPrompt`,
`promptApi.updatePrompt` and `promptApi.deletePrompt` (api.ts). -/
def groupQuery (enc : String → String) (group : Option String) : String :=
  if groupTruthy group then "?group=" ++ enc (group.getD "") else ""

/-- Embeds the URL built by `promptApi.getPrompt` (api.ts). -/
def getPromptUrl (enc : String → String) (group : Option String)
    (name : String) : String :=
  API_BASE_URL ++ "/api/prompts/" ++ enc name ++ groupQuery enc group

/-- Embeds the URL built by `promptApi.deletePrompt` (api.ts); identical to
the get URL, with the DELETE method. -/
def deletePromptUrl (enc : String → String) (group : Option String)
    (name : String) : String :=
  API_BASE_URL ++ "/api/prompts/" ++ enc name ++ groupQuery enc group

/-! Embedding of `handleResponse` and `ApiError` (services/api.ts). The
parsed JSON body is abstracted by the two fields handleResponse inspects,
`detail` and `message`; a body that is not valid JSON is `none`. -/

/-- Embeds one element of a FastAPI validation-error array as read by
handleResponse: `e.msg || e.message || 'Validation error'`. -/
structure ValidationItem where
  msg : Option String := none
  message : Option String := none
  deriving DecidableEq, Repr

/-- Embeds the shapes of `error.detail` that handleResponse distinguishes:
a string, an array of validation items, or some other object (whose
`JSON.stringify` rendering is carried as a string). -/
inductive DetailVal where
  | str (s : String)
  | arr (items : List ValidationItem)
  | obj (stringified : String)
  deriving DecidableEq, Repr

/-- Embeds the parsed JSON body as seen by handleResponse. -/
structure ParsedJson where
  detail : Option DetailVal := none
  message : Option String := none
  deriving DecidableEq, Repr

/-- Embeds the `Response` fields that handleResponse reads; `parsedBody` is
the result of `response.json()`, `none` when the body is not valid JSON
(in which case `response.json()` rejects). -/
structure HttpResponse where
  ok : Bool
  status : Nat
  parsedBody : Option ParsedJson
  deriving DecidableEq, Repr

/-- Embeds the JavaScript `a || b` fallback on an optional string: an
absent or empty string falls through. -/
def jsOrElse (a : Option String) (b : String) : String :=
  match a with
  | none => b
  | some s => if s = "" then b else s

/-- Embeds `e.msg || e.message || 'Validation error'` (api.ts line 34). -/
def itemMessage (it : ValidationItem) : String :=
  jsOrElse it.msg (jsOrElse it.message "Validation error")

/-- Embeds the default message `Request failed with status N`. -/
def defaultMessage (status : Nat) : String :=
  "Request failed with status " ++ toString status

/-- Embeds the message computation of the non-ok branch of handleResponse
(api.ts lines 26-42). -/
def errorMessage (status : Nat) (body : Option ParsedJson) : String :=
  match body with
  | none => defaultMessage status
  | some b =>
    match b.detail with
    | some (.str s) => s
    | some (.arr items) => String.intercalate ", " (items.map itemMessage)
    | some (.obj s) => s
    | none =>
      match b.message with
      | some m => if m = "" then defaultMessage status else m
      | none => defaultMessage status

/-- Embeds what handleResponse can throw: an `ApiError` carrying the HTTP
status, or the rejection of `response.json()` on an ok response whose body
is not valid JSON. -/
inductive Thrown where
  | apiError (status : Nat) (message : String)
  | jsonRejection
  deriving DecidableEq, Repr

/-- Embeds the value handleResponse resolves with: the empty object for a
204 response, else the parsed JSON body. -/
inductive HandleResult where
  | emptyObj
  | json (b : ParsedJson)
  deriving DecidableEq, Repr

/-- Embeds `handleResponse` of api.ts. -/
def handleResponse (r : HttpResponse) : Except Thrown HandleResult :=
  if r.ok = false then
    .error (.apiError r.status (errorMessage r.status r.parsedBody))
  else if r.status = 204 then
    .ok .emptyObj
  else
    match r.parsedBody with
    | some b => .ok (.json b)
    | none => .error .jsonRejection

/-- Embeds the `status` field of a thrown `ApiError`. -/
def thrownStatus (t : Thrown) : Option Nat :=
  match t with
  | .apiError s _ => some s
  | .jsonRejection => none

/-! Embedding of `deletePrompt` in `frontend/src/hooks/usePrompts.ts`. -/

/-- Embeds the cache update applied on a successful delete (usePrompts.ts
line 36): keep every prompt except those whose group and name both match. -/
def deletePromptFilter (prompts : List Prompt) (group name : String) :
    List Prompt :=
  prompts.filter (fun p => !(p.group == group && p.name == name))

/-- Embeds the whole `deletePrompt` callback of usePrompts.ts: on an API
rejection `e` the cached list is untouched and an Error with the extracted
message is thrown; on success the cache is filtered. `extract` stands for
`extractErrorMessage`, whose source is not inspected here; `outcome` is the
result of the awaited `promptApi.deletePrompt` call. -/
def deletePromptRun (extract : Thrown → String) (prompts : List Prompt)
    (group name : String) (outcome : Except Thrown Unit) :
    List Prompt × Option String :=
  match outcome with
  | .error e => (prompts, some (extract e))
  | .ok _ => (deletePromptFilter prompts group name, none)

/-! Embedding of the update payload built by `onSubmit` in
`frontend/src/pages/PromptForm.tsx` (lines 62-72). -/

/-- Embeds the validated form data (PromptFormInput) reaching onSubmit. -/
structure PromptFormData where
  name : String
  description : String
  system_prompt : String
  user_prompt : String
  tags : List String
  group : String
  deriving DecidableEq, Repr

/-- Embeds `data.description.trim() || undefined` and the like: an empty
result becomes `undefined`. -/
def trimOrUndefined (s : String) : Option String :=
  if jsTrim s = "" then none else some (jsTrim s)

/-- Embeds `data.group || undefined`. -/
def orUndefined (s : String) : Option String :=
  if s = "" then none else some s

/-- Embeds the `updateData` object built by onSubmit in PromptForm.tsx for
an edit submission: note that it does include a `group` field. -/
def buildUpdateData (d : PromptFormData) : PromptUpdate :=
  { description := trimOrUndefined d.description
  , system_prompt := some d.system_prompt
  , user_prompt := trimOrUndefined d.user_prompt
  , tags := if 0 < d.tags.length then some d.tags else none
  , group := orUndefined d.group }

/-! Record Store model. The backend sources (backend/services/storage.py,
backend/models.py) are not part of this repository snapshot; the store is
modelled from the specification, sections 3 and 4.3. -/

/-- Modelled from the spec: a stored Record (spec section 3) with name,
optional single-level group (empty string meaning ungrouped), description,
required system prompt, optional user prompt and a de-duplicated tag list. -/
structure StoredRecord where
  name : String
  group : String
  description : Option String
  system_prompt : String
  user_prompt : Option String
  tags : List String
  deriving DecidableEq, Repr

/-- Modelled from the spec: the (group, name) pair is the identity used to
resolve a record (spec section 3, invariants). -/
def recordKey (r : StoredRecord) : String × String := (r.group, r.name)

/-- Modelled from the spec: store-wide uniqueness of the (group, name)
identity (spec section 3, invariants). -/
def StoreWF (store : List StoredRecord) : Prop :=
  (store.map recordKey).Nodup

/-- Modelled from the spec: `get(group, name)` resolves a record by its
(group, name) identity (spec section 4.3). -/
def findRecord (store : List StoredRecord) (g n : String) :
    Option StoredRecord :=
  store.find? (fun r => r.group == g && r.name == n)

/-- Helper for tag normalization: keep the first occurrence of every
element, dropping later duplicates. -/
def dedupFirstAux (seen : List String) : List String → List String
  | [] => []
  | t :: ts =>
    if t ∈ seen then dedupFirstAux seen ts
    else t :: dedupFirstAux (t :: seen) ts

def dedupFirst (ts : List String) : List String := dedupFirstAux [] ts

/-- Modelled from the spec: tags as stored are de-duplicated (first
occurrence kept, preserving insertion order) and never include empty
strings (spec section 3, invariants). -/
def storedTags (ts : List String) : List String :=
  dedupFirst (ts.filter (fun t => t ≠ ""))

/-- Modelled from the spec: field validation shared by create and update
(spec section 3), reusing the limits of the frontend schema the backend
mirrors. -/
def patchValid (p : PromptUpdate) : Bool :=
  (match p.system_prompt with
   | none => true
   | some s => systemPromptAccepted s) &&
  userPromptAccepted p.user_prompt

/-- Modelled from the spec: applying an update patch to a stored record.
The patch's `group` is ignored and the patch carries no name, so the
record's identity is untouched; absent fields keep their stored value;
tags are normalized on write (spec sections 3 and 4.3, `update`). -/
def applyPatch (r : StoredRecord) (p : PromptUpdate) : StoredRecord :=
  { r with
    description := match p.description with
      | some d => some d
      | none => r.description
  , system_prompt := p.system_prompt.getD r.system_prompt
  , user_prompt := match p.user_prompt with
      | some u => some u
      | none => r.user_prompt
  , tags := match p.tags with
      | some ts => storedTags ts
      | none => r.tags }

inductive StoreError where
  | notFound
  | alreadyExists
  | validationFailed
  deriving DecidableEq, Repr

/-- Modelled from the spec: `update(group, name, patch)` re-writes the
record in place, failing with NotFound when the identity does not resolve
and with ValidationFailed on a bad patch (spec section 4.3). -/
def updateRecord (store : List StoredRecord) (g n : String)
    (p : PromptUpdate) : Except StoreError (List StoredRecord) :=
  match findRecord store g n with
  | none => .error .notFound
  | some _ =>
    if patchValid p then
      .ok (store.map (fun r =>
        if r.group == g && r.name == n then applyPatch r p else r))
    else .error .validationFailed

/-- Modelled from the spec: the input of `create` (spec section 4.3),
mirroring the frontend `PromptCreate` interface. -/
structure PromptCreateInput where
  name : String
  description : Option String := none
  system_prompt : String
  user_prompt : Option String := none
  tags : Option (List String) := none
  group : Option String := none
  deriving DecidableEq, Repr

/-- Modelled from the spec: field validation of `create` (spec sections 3
and 4.3), with the identifier rules of the schema. -/
def createValid (i : PromptCreateInput) : Bool :=
  nameFieldAccepted i.name && groupFieldAccepted i.group &&
  systemPromptAccepted i.system_prompt && userPromptAccepted i.user_prompt

/-- Modelled from the spec: the record persisted by `create`, with tags
normalized on write (spec section 3). -/
def mkStoredRecord (i : PromptCreateInput) : StoredRecord :=
  { name := i.name
  , group := i.group.getD ""
  , description := i.description
  , system_prompt := i.system_prompt
  , user_prompt := i.user_prompt
  , tags := storedTags (i.tags.getD []) }

/-- Modelled from the spec: `create(input)` validates, fails with
AlreadyExists when the (group, name) identity is taken, and otherwise
appends the new record (spec section 4.3). -/
def createRecord (store : List StoredRecord) (i : PromptCreateInput) :
    Except StoreError (List StoredRecord) :=
  if createValid i then
    match findRecord store (i.group.getD "") i.name with
    | some _ => .error .alreadyExists
    | none => .ok (store ++ [mkStoredRecord i])
  else .error .validationFailed

/-- Tag invariant of a single tag list: no duplicates and no empty
strings. -/
abbrev TagsInv (ts : List String) : Prop := ts.Nodup ∧ "" ∉ ts

/-- Tag invariant over a whole store. -/
abbrev StoreTagsInv (store : List StoredRecord) : Prop :=
  ∀ r ∈ store, TagsInv r.tags

/-! Document Codec model. The codec source (backend/services/storage.py) is
not part of this repository snapshot; it is modelled from the
specification, section 4.1, and the on-disk format documented in
backend/README.md: a YAML-frontmatter header holding description and tags
(name and group are not stored, they derive from the path), the system
prompt body, then an optional user section after an explicit delimiter.
The text is abstracted as a list of lines. -/

/-- Modelled from the spec: the fields the codec round-trips. Bodies are
lists of lines; the description and each tag occupy a single line. -/
structure CodecRecord where
  description : String
  tags : List String
  system_prompt : List String
  user_prompt : List String
  deriving DecidableEq, Repr

inductive DecodeError where
  | malformedHeader
  | missingSystemPrompt
  deriving DecidableEq, Repr

/-- Strips an expected sequence of characters from the front of a line,
returning the rest, or none when the line does not start with it. -/
def stripPre (pre : List Char) (s : List Char) : Option (List Char) :=
  match pre, s with
  | [], rest => some rest
  | _ :: _, [] => none
  | p :: ps, c :: cs => if c = p then stripPre ps cs else none

/-- Strips an expected literal from the front of a line. -/
def stripLit (pre s : String) : Option String :=
  (stripPre pre.data s.data).map String.mk

def HEADER_MARKER : String := "---"
def USER_DELIMITER : String := "---user---"

/-- Modelled from the spec: serialization of the tag list inside the
header, one YAML list item per tag. -/
def tagLine (t : String) : String := "- " ++ t

/-- Modelled from the spec: `encode(record)` (spec section 4.1): header
block between markers holding the description and the tags, then the
system prompt body; when the user prompt is empty the delimiter and the
trailing section are omitted. -/
def encode (r : CodecRecord) : List String :=
  HEADER_MARKER :: ("description: " ++ r.description) :: "tags:" ::
    (r.tags.map tagLine ++ HEADER_MARKER :: r.system_prompt ++
      (if r.user_prompt.isEmpty then []
       else USER_DELIMITER :: r.user_prompt))

/-- Parses the YAML list items of the tags entry, up to and including the
closing header marker; returns the tags and the remaining lines. -/
def parseTagLines : List String → Option (List String × List String)
  | [] => none
  | l :: ls =>
    if l = HEADER_MARKER then some ([], ls)
    else
      match stripLit "- " l with
      | some t =>
        match parseTagLines ls with
        | some (ts, rest) => some (t :: ts, rest)
        | none => none
      | none => none

/-- Parses the header block after the opening marker: a description entry,
the tags entry, then the closing marker; returns the description, the tags
and the body lines. -/
def parseHeader : List String → Option (String × List String × List String)
  | dline :: tline :: rest =>
    if tline = "tags:" then
      match stripLit "description: " dline, parseTagLines rest with
      | some d, some (ts, body) => some (d, ts, body)
      | _, _ => none
    else none
  | _ => none

/-- Splits the body at the first user delimiter: the system prompt lines,
and the user prompt lines when the delimiter is present. -/
def splitAtDelim : List String → List String × Option (List String)
  | [] => ([], none)
  | l :: ls =>
    if l = USER_DELIMITER then ([], some ls)
    else
      let p := splitAtDelim ls
      (l :: p.1, p.2)

/-- Modelled from the spec: the body before the delimiter must not be
empty after trimming whitespace (spec section 4.1, MissingSystemPrompt). -/
def hasContent (ls : List String) : Bool :=
  ls.any (fun l => !(jsTrim l == ""))

/-- Modelled from the spec: `decode(bytes)` (spec section 4.1): fails with
MalformedHeader when the header block is not well-formed, with
MissingSystemPrompt when the body before the delimiter is blank; otherwise
the inverse of encode. -/
def decode (ls : List String) : Except DecodeError CodecRecord :=
  match ls with
  | l :: rest =>
    if l = HEADER_MARKER then
      match parseHeader rest with
      | none => .error .malformedHeader
      | some (d, ts, body) =>
        let p := splitAtDelim body
        if hasContent p.1 then
          .ok { description := d
              , tags := ts
              , system_prompt := p.1
              , user_prompt := p.2.getD [] }
        else .error .missingSystemPrompt
    else .error .malformedHeader
  | [] => .error .malformedHeader

/-- Validity of a codec record for the round-trip law: the system prompt
has non-blank content and none of its lines spells the user delimiter. -/
abbrev ValidCodecRecord (r : CodecRecord) : Prop :=
  hasContent r.system_prompt = true ∧
  ∀ l ∈ r.system_prompt, l ≠ USER_DELIMITER

/-! Helper lemmas. -/

theorem mem_dedupFirstAux (x : String) (ls : List String) :
    ∀ seen, x ∈ dedupFirstAux seen ls → x ∈ ls ∧ x ∉ seen := by
  induction ls with
  | nil => intro seen h; simp [dedupFirstAux] at h
  | cons t ts ih =>
    intro seen h
    simp only [dedupFirstAux] at h
    by_cases ht : t ∈ seen
    · rw [if_pos ht] at h
      obtain ⟨h1, h2⟩ := ih seen h
      exact ⟨List.mem_cons_of_mem _ h1, h2⟩
    · rw [if_neg ht] at h
      rcases List.mem_cons.mp h with rfl | h2
      · exact ⟨List.mem_cons_self _ _, ht⟩
      · obtain ⟨h1, h3⟩ := ih (t :: seen) h2
        exact ⟨List.mem_cons_of_mem _ h1,
          fun hx => h3 (List.mem_cons_of_mem _ hx)⟩

theorem nodup_dedupFirstAux (ls : List String) :
    ∀ seen, (dedupFirstAux seen ls).Nodup := by
  induction ls with
  | nil => intro seen; simp [dedupFirstAux]
  | cons t ts ih =>
    intro seen
    simp only [dedupFirstAux]
    by_cases ht : t ∈ seen
    · rw [if_pos ht]; exact ih seen
    · rw [if_neg ht]
      refine List.nodup_cons.mpr ⟨fun hmem => ?_, ih (t :: seen)⟩
      exact (mem_dedupFirstAux t ts (t :: seen) hmem).2 (List.mem_cons_self _ _)

theorem tagsInv_storedTags (ts : List String) : TagsInv (storedTags ts) := by
  constructor
  · exact nodup_dedupFirstAux _ _
  · intro hmem
    have h1 := (mem_dedupFirstAux "" _ [] hmem).1
    have h2 := List.mem_filter.mp h1
    simp at h2

theorem stripPre_append (xs ys : List Char) : stripPre xs (xs ++ ys) = some ys := by
  induction xs with
  | nil => rfl
  | cons c cs ih => simp [stripPre, ih]

theorem stripLit_append (pre s : String) : stripLit pre (pre ++ s) = some s := by
  unfold stripLit
  rw [String.data_append, stripPre_append]
  rfl

theorem tagLine_ne_marker (t : String) : tagLine t ≠ HEADER_MARKER := by
  intro h
  have h2 := congrArg String.data h
  rw [tagLine, String.data_append] at h2
  simp [HEADER_MARKER] at h2

theorem parseTagLines_round (tags rest : List String) :
    parseTagLines (tags.map tagLine ++ HEADER_MARKER :: rest) =
      some (tags, rest) := by
  induction tags with
  | nil => simp [parseTagLines]
  | cons t ts ih =>
    simp only [List.map_cons, List.cons_append, parseTagLines]
    rw [if_neg (tagLine_ne_marker t)]
    rw [show stripLit "- " (tagLine t) = some t from stripLit_append "- " t]
    simp only [List.append_eq]
    rw [ih]

theorem splitAtDelim_no (ls : List String)
    (h : ∀ l ∈ ls, l ≠ USER_DELIMITER) : splitAtDelim ls = (ls, none) := by
  induction ls with
  | nil => rfl
  | cons l ls ih =>
    simp only [splitAtDelim]
    rw [if_neg (h l (List.mem_cons_self _ _))]
    rw [ih (fun x hx => h x (List.mem_cons_of_mem _ hx))]

theorem splitAtDelim_append (sys usr : List String)
    (h : ∀ l ∈ sys, l ≠ USER_DELIMITER) :
    splitAtDelim (sys ++ USER_DELIMITER :: usr) = (sys, some usr) := by
  induction sys with
  | nil => simp [splitAtDelim]
  | cons l ls ih =>
    simp only [List.cons_append, splitAtDelim]
    rw [if_neg (h l (List.mem_cons_self _ _))]
    simp only [List.append_eq]
    rw [ih (fun x hx => h x (List.mem_cons_of_mem _ hx))]

/-! Claim theorems. -/

/-- C3: validation of the name field of the create schema succeeds if and
only if the name is a non-empty string every character of which is in the
class [A-Za-z0-9_-]; the empty string and any name with a character
outside the class are rejected. -/
theorem c3_name_validation (s : String) :
    nameFieldAccepted s = true ↔
      (s ≠ "" ∧ ∀ c ∈ s.data, isIdentChar c = true) := by
  unfold nameFieldAccepted
  rw [Bool.and_eq_true, List.all_eq_true]
  have hlen : s.length = s.data.length := rfl
  constructor
  · rintro ⟨h1, h2⟩
    refine ⟨?_, h2⟩
    intro he
    rw [string_eq_empty_iff_data] at he
    rw [decide_eq_true_eq, hlen, he] at h1
    exact absurd h1 (by decide)
  · rintro ⟨h1, h2⟩
    refine ⟨?_, h2⟩
    rw [decide_eq_true_eq, hlen]
    rcases Nat.eq_zero_or_pos s.data.length with hz | hp
    · exact absurd ((string_eq_empty_iff_data s).mpr
        (List.length_eq_zero.mp hz)) h1
    · exact hp

/-- C4: the schemas accept system_prompt if and only if it is non-empty
and at most 50000 characters, and accept user_prompt if and only if it is
absent (create schema) or at most 50000 characters; the form schema's
required user_prompt is accepted if and only if it is at most 50000
characters. -/
theorem c4_prompt_length_validation (s : String) (u : Option String)
    (v : String) :
    (systemPromptAccepted s = true ↔
      (s ≠ "" ∧ s.length ≤ PROMPT_MAX_LENGTH)) ∧
    (userPromptAccepted u = true ↔
      (u = none ∨ ∃ t, u = some t ∧ t.length ≤ PROMPT_MAX_LENGTH)) ∧
    (formUserPromptAccepted v = true ↔ v.length ≤ PROMPT_MAX_LENGTH) := by
  refine ⟨?_, ?_, ?_⟩
  · unfold systemPromptAccepted
    rw [Bool.and_eq_true, decide_eq_true_eq, decide_eq_true_eq]
    have hlen : s.length = s.data.length := rfl
    constructor
    · rintro ⟨h1, h2⟩
      refine ⟨?_, h2⟩
      intro he
      rw [string_eq_empty_iff_data] at he
      rw [hlen, he] at h1
      exact absurd h1 (by decide)
    · rintro ⟨h1, h2⟩
      refine ⟨?_, h2⟩
      rw [hlen]
      rcases Nat.eq_zero_or_pos s.data.length with hz | hp
      · exact absurd ((string_eq_empty_iff_data s).mpr
          (List.length_eq_zero.mp hz)) h1
      · exact hp
  · cases u with
    | none => simp [userPromptAccepted]
    | some t => simp [userPromptAccepted]
  · simp [formUserPromptAccepted]

/-- C5: the group field is optional and accepted if and only if every
character is in the class [A-Za-z0-9_-] (so the empty string, meaning the
ungrouped root, is accepted); and two records with the same name, one with
a non-empty group and one ungrouped, have distinct identities and may
coexist in a well-formed store, each resolvable by its own (group, name)
pair. -/
theorem c5_group_validation_and_coexistence :
    (∀ g : Option String, groupFieldAccepted g = true ↔
      ∀ c ∈ (g.getD "").data, isIdentChar c = true) ∧
    groupFieldAccepted (some "") = true ∧
    (∀ r1 r2 : StoredRecord, r1.name = r2.name → r1.group ≠ "" →
      r2.group = "" →
      recordKey r1 ≠ recordKey r2 ∧ StoreWF [r1, r2] ∧
      findRecord [r1, r2] r1.group r1.name = some r1 ∧
      findRecord [r1, r2] "" r2.name = some r2) := by
  refine ⟨?_, rfl, ?_⟩
  · intro g
    cases g with
    | none => simp [groupFieldAccepted]
    | some s => simp [groupFieldAccepted, List.all_eq_true]
  · intro r1 r2 hname hg1 hg2
    refine ⟨?_, ?_, ?_, ?_⟩
    · intro h
      rw [recordKey, recordKey, Prod.mk.injEq] at h
      exact hg1 (h.1.trans hg2)
    · simp only [StoreWF, List.map_cons, List.map_nil, recordKey,
        List.nodup_cons, List.mem_singleton, List.mem_nil_iff,
        List.nodup_nil, and_true, not_false_iff, Prod.mk.injEq]
      intro h
      exact hg1 (h.1.trans hg2)
    · unfold findRecord
      rw [List.find?_cons_of_pos _ (by simp)]
    · unfold findRecord
      rw [List.find?_cons_of_neg _ (by simp [hg1]),
        List.find?_cons_of_pos _ (by simp [hg2])]

/-- C6: the request URLs built by the API client carry a group query
parameter if and only if the group is a defined non-empty string; with an
undefined or empty group the list, get and delete URLs carry no group
parameter. -/
theorem c6_group_query_param (enc : String → String) (g : Option String)
    (n : String) :
    (groupTruthy g = true ↔ ∃ s, g = some s ∧ s ≠ "") ∧
    (groupTruthy g = false →
      listPromptsUrl enc g = API_BASE_URL ++ "/api/prompts" ∧
      getPromptUrl enc g n = API_BASE_URL ++ "/api/prompts/" ++ enc n ∧
      deletePromptUrl enc g n = API_BASE_URL ++ "/api/prompts/" ++ enc n) ∧
    (groupTruthy g = true →
      listPromptsUrl enc g =
        API_BASE_URL ++ "/api/prompts?group=" ++ enc (g.getD "") ∧
      getPromptUrl enc g n =
        API_BASE_URL ++ "/api/prompts/" ++ enc n ++ "?group=" ++
          enc (g.getD "") ∧
      deletePromptUrl enc g n =
        API_BASE_URL ++ "/api/prompts/" ++ enc n ++ "?group=" ++
          enc (g.getD "")) := by
  refine ⟨?_, ?_, ?_⟩
  · cases g with
    | none => simp [groupTruthy]
    | some s => simp [groupTruthy]
  · intro hf
    unfold listPromptsUrl getPromptUrl deletePromptUrl groupQuery
    rw [hf]
    simp
  · intro ht
    unfold listPromptsUrl getPromptUrl deletePromptUrl groupQuery
    rw [ht]
    simp [String.append_assoc]

/-- C7: the group filter of the prompt list shows the full list when no
group is selected, exactly the prompts with empty group when the root
sentinel is selected, and exactly the prompts of group g when any other g
is selected, preserving relative order and multiplicity. -/
theorem c7_group_filter (prompts : List Prompt) (sel : String)
    (p : Prompt) :
    (sel = "" → filteredPrompts prompts sel = prompts) ∧
    (sel = "(root)" →
      (p ∈ filteredPrompts prompts sel ↔ p ∈ prompts ∧ p.group = "")) ∧
    (sel ≠ "" → sel ≠ "(root)" →
      (p ∈ filteredPrompts prompts sel ↔ p ∈ prompts ∧ p.group = sel)) ∧
    List.Sublist (filteredPrompts prompts sel) prompts := by
  refine ⟨?_, ?_, ?_, ?_⟩
  · intro h; simp [filteredPrompts, h]
  · intro h
    subst h
    simp [filteredPrompts, List.mem_filter]
  · intro h1 h2
    simp [filteredPrompts, h1, h2, List.mem_filter]
  · unfold filteredPrompts
    split
    · exact List.Sublist.refl _
    · split
      · exact List.filter_sublist _
      · exact List.filter_sublist _

/-- C1: a single-record update leaves every record's (group, name)
identity unchanged: applying a patch never touches group or name, so a
successful update(group, name, patch) preserves the identity of every
stored record, for every patch — even though the frontend PromptUpdate
payload has an optional group field which the edit form fills in whenever
the form's group is non-empty. -/
theorem c1_update_preserves_identity (store store2 : List StoredRecord)
    (g n : String) (p : PromptUpdate) (r : StoredRecord)
    (d : PromptFormData) :
    (updateRecord store g n p = .ok store2 →
      store2.map recordKey = store.map recordKey) ∧
    (applyPatch r p).group = r.group ∧
    (applyPatch r p).name = r.name ∧
    (d.group ≠ "" → (buildUpdateData d).group = some d.group) := by
  refine ⟨?_, rfl, rfl, ?_⟩
  · intro h
    unfold updateRecord at h
    cases hf : findRecord store g n with
    | none => rw [hf] at h; simp at h
    | some rec =>
      rw [hf] at h
      by_cases hv : patchValid p = true
      · rw [if_pos hv] at h
        simp only [Except.ok.injEq] at h
        subst h
        rw [List.map_map]
        apply List.map_congr_left
        intro a _
        by_cases hc : (a.group == g && a.name == n) = true
        · simp only [Function.comp_apply]
          rw [if_pos hc]
          rfl
        · simp only [Function.comp_apply]
          rw [if_neg hc]
      · rw [if_neg hv] at h
        simp at h
  · intro hg
    simp [buildUpdateData, orUndefined, hg]

/-- C2: stored tag lists are always de-duplicated with no empty strings
(tags written by create or update pass through normalization, so the
invariant holds store-wide after every successful create or update);
updating with tags [review, review] stores exactly [review]; and the tag
entry operations preserve the invariant, with a blank or already-present
tag leaving the list unchanged. -/
theorem c2_tag_invariants (ts tags : List String) (t : String)
    (store store2 : List StoredRecord) (g n : String) (p : PromptUpdate)
    (i : PromptCreateInput) :
    TagsInv (storedTags ts) ∧
    storedTags ["review", "review"] = ["review"] ∧
    (StoreTagsInv store → updateRecord store g n p = .ok store2 →
      StoreTagsInv store2) ∧
    (StoreTagsInv store → createRecord store i = .ok store2 →
      StoreTagsInv store2) ∧
    (TagsInv tags → TagsInv (addTag tags t)) ∧
    (jsTrim t = "" ∨ jsTrim t ∈ tags → addTag tags t = tags) ∧
    (TagsInv tags → TagsInv (removeTag tags t)) := by
  refine ⟨tagsInv_storedTags ts, rfl, ?_, ?_, ?_, ?_, ?_⟩
  · intro hstore h
    unfold updateRecord at h
    cases hf : findRecord store g n with
    | none => rw [hf] at h; simp at h
    | some rec =>
      rw [hf] at h
      by_cases hv : patchValid p = true
      · rw [if_pos hv] at h
        simp only [Except.ok.injEq] at h
        subst h
        intro r2 hr2
        rw [List.mem_map] at hr2
        obtain ⟨a, ha, rfl⟩ := hr2
        by_cases hc : (a.group == g && a.name == n) = true
        · rw [if_pos hc]
          cases hpt : p.tags with
          | none =>
            have : (applyPatch a p).tags = a.tags := by
              simp [applyPatch, hpt]
            rw [this]
            exact hstore a ha
          | some ts2 =>
            have : (applyPatch a p).tags = storedTags ts2 := by
              simp [applyPatch, hpt]
            rw [this]
            exact tagsInv_storedTags ts2
        · rw [if_neg hc]
          exact hstore a ha
      · rw [if_neg hv] at h
        simp at h
  · intro hstore h
    unfold createRecord at h
    by_cases hv : createValid i = true
    · rw [if_pos hv] at h
      cases hf : findRecord store (i.group.getD "") i.name with
      | some rec => rw [hf] at h; simp at h
      | none =>
        rw [hf] at h
        simp only [Except.ok.injEq] at h
        subst h
        intro r2 hr2
        rcases List.mem_append.mp hr2 with h2 | h2
        · exact hstore r2 h2
        · rw [List.mem_singleton] at h2
          subst h2
          exact tagsInv_storedTags _
    · rw [if_neg hv] at h
      simp at h
  · rintro ⟨hnd, hne⟩
    unfold addTag
    by_cases hc : jsTrim t ≠ "" ∧ jsTrim t ∉ tags
    · rw [if_pos hc]
      constructor
      · rw [List.nodup_append]
        refine ⟨hnd, List.nodup_singleton _, ?_⟩
        intro a ha hb
        rw [List.mem_singleton] at hb
        subst hb
        exact hc.2 ha
      · rw [List.mem_append]
        rintro (h | h)
        · exact hne h
        · rw [List.mem_singleton] at h
          exact hc.1 h.symm
    · rw [if_neg hc]
      exact ⟨hnd, hne⟩
  · intro hor
    unfold addTag
    rw [if_neg]
    rcases hor with h | h
    · exact fun hc => hc.1 h
    · exact fun hc => hc.2 h
  · rintro ⟨hnd, hne⟩
    refine ⟨List.Nodup.filter _ hnd, ?_⟩
    intro h
    exact hne (List.mem_of_mem_filter h)

/-- C8: for every valid codec record, decoding the encoded document
reproduces the record exactly — no field is altered by an encode/decode
round trip (the model abstracts the text as lines, so the incidental
trailing-newline normalization the claim allows never arises). -/
theorem c8_codec_round_trip (r : CodecRecord) (h : ValidCodecRecord r) :
    decode (encode r) = .ok r := by
  obtain ⟨hc, hd⟩ := h
  unfold encode
  simp only [decode, parseHeader, eq_self_iff_true, if_true]
  rw [stripLit_append "description: " r.description]
  by_cases hu : r.user_prompt = []
  · rw [show r.user_prompt.isEmpty = true by rw [hu]; rfl]
    simp only [if_true, List.append_nil]
    rw [parseTagLines_round]
    simp only
    rw [splitAtDelim_no r.system_prompt hd]
    simp only
    rw [if_pos hc, ← hu]
    rfl
  · rw [show r.user_prompt.isEmpty = false by
      cases hul : r.user_prompt with
      | nil => exact absurd hul hu
      | cons a l => rfl]
    simp only [Bool.false_eq_true, if_false, List.append_assoc,
      List.cons_append]
    rw [parseTagLines_round]
    simp only
    rw [splitAtDelim_append r.system_prompt r.user_prompt hd]
    rw [if_pos hc]
    rfl

/-- C9 counterexample: the claim that handleResponse never throws on an ok
response is false: an ok 200 response whose body is not valid JSON makes
the returned response.json() promise reject, so handleResponse throws. -/
theorem c9_counterexample :
    ({ ok := true, status := 200, parsedBody := none } : HttpResponse).ok
      = true ∧
    handleResponse { ok := true, status := 200, parsedBody := none } =
      .error .jsonRejection :=
  ⟨rfl, rfl⟩

/-- C9 (amended): a non-ok response makes handleResponse throw an ApiError
whose status equals the response's HTTP status, with the message derived
from the body's detail when the body is parseable JSON and a default
message otherwise; an ok 204 response yields the empty object; an ok
non-204 response resolves with the parsed JSON body when the body parses,
and propagates the response.json() rejection (which is not an ApiError)
when it does not. -/
theorem c9_handle_response (r : HttpResponse) (b : ParsedJson) :
    (r.ok = false →
      handleResponse r =
        .error (.apiError r.status (errorMessage r.status r.parsedBody))) ∧
    (r.ok = true → r.status = 204 → handleResponse r = .ok .emptyObj) ∧
    (r.ok = true → r.status ≠ 204 → r.parsedBody = some b →
      handleResponse r = .ok (.json b)) ∧
    (r.ok = true → r.status ≠ 204 → r.parsedBody = none →
      handleResponse r = .error .jsonRejection) ∧
    (errorMessage r.status none = defaultMessage r.status) ∧
    (∀ t, handleResponse r = .error t → r.ok = false →
      thrownStatus t = some r.status) := by
  refine ⟨?_, ?_, ?_, ?_, rfl, ?_⟩
  · intro hok
    unfold handleResponse
    rw [hok]
    rfl
  · intro hok hs
    unfold handleResponse
    rw [hok, hs]
    rfl
  · intro hok hs hb
    unfold handleResponse
    rw [hok, hb]
    simp [hs]
  · intro hok hs hb
    unfold handleResponse
    rw [hok, hb]
    simp [hs]
  · intro t ht hok
    unfold handleResponse at ht
    rw [hok] at ht
    simp only [Bool.false_eq_true, if_true, Except.error.injEq] at ht
    rw [← ht]
    rfl

/-- C10: the deletePrompt cache update of usePrompts is atomic on error
and frame-exact on success: an API rejection leaves the cached list
untouched and throws the extracted message; a success removes exactly the
entries whose group and name match, preserving the relative order of the
rest. -/
theorem c10_delete_prompt_cache (extract : Thrown → String)
    (prompts : List Prompt) (g n : String) (e : Thrown) (p : Prompt) :
    deletePromptRun extract prompts g n (.error e) =
      (prompts, some (extract e)) ∧
    (deletePromptRun extract prompts g n (.ok ())).2 = none ∧
    (p ∈ (deletePromptRun extract prompts g n (.ok ())).1 ↔
      p ∈ prompts ∧ ¬(p.group = g ∧ p.name = n)) ∧
    List.Sublist (deletePromptRun extract prompts g n (.ok ())).1
      prompts := by
  refine ⟨rfl, rfl, ?_, ?_⟩
  · simp only [deletePromptRun, deletePromptFilter, List.mem_filter,
      Bool.not_eq_true', Bool.and_eq_true, beq_iff_eq]
    constructor
    · rintro ⟨h1, h2⟩
      refine ⟨h1, ?_⟩
      rintro ⟨hg, hn⟩
      rw [hg, hn] at h2
      simp at h2
    · rintro ⟨h1, h2⟩
      refine ⟨h1, ?_⟩
      by_cases hg : p.group = g
      · by_cases hn : p.name = n
        · exact absurd ⟨hg, hn⟩ h2
        · simp [hg, hn]
      · simp [hg]
  · exact List.filter_sublist _

/-! Concrete data for the witness theorems. -/

def w1store : List StoredRecord :=
  [{ name := "review", group := "coding", description := none,
     system_prompt := "sys", user_prompt := none, tags := [] }]

def w1patch : PromptUpdate :=
  { system_prompt := some "new", group := some "moved" }

def w1store2 : List StoredRecord :=
  [{ name := "review", group := "coding", description := none,
     system_prompt := "new", user_prompt := none, tags := [] }]

def w1form : PromptFormData :=
  { name := "x", description := "", system_prompt := "s",
    user_prompt := "", tags := [], group := "g" }

def w1rec : StoredRecord :=
  { name := "review", group := "coding", description := none,
    system_prompt := "sys", user_prompt := none, tags := [] }

/-- Witness for C1 at a concrete store, patch and form input. -/
theorem c1_update_preserves_identity_witness :
    updateRecord w1store "coding" "review" w1patch = .ok w1store2 ∧
    w1store2.map recordKey = w1store.map recordKey ∧
    w1form.group ≠ "" ∧
    (buildUpdateData w1form).group = some "g" := by
  have h := c1_update_preserves_identity w1store w1store2 "coding" "review"
    w1patch w1rec w1form
  exact ⟨rfl, h.1 rfl, by decide, h.2.2.2 (by decide)⟩

def w2store : List StoredRecord :=
  [{ name := "review", group := "coding", description := none,
     system_prompt := "sys", user_prompt := none, tags := ["old"] }]

def w2patch : PromptUpdate := { tags := some ["review", "review"] }

def w2store2 : List StoredRecord :=
  [{ name := "review", group := "coding", description := none,
     system_prompt := "sys", user_prompt := none, tags := ["review"] }]

def w2input : PromptCreateInput :=
  { name := "n", system_prompt := "s", tags := some ["t", "t", ""] }

def w2store3 : List StoredRecord := w2store ++ [mkStoredRecord w2input]

/-- Witness for C2 at concrete tag lists and a concrete store. -/
theorem c2_tag_invariants_witness :
    TagsInv (storedTags ["a", "a", ""]) ∧
    storedTags ["review", "review"] = ["review"] ∧
    StoreTagsInv w2store2 ∧
    StoreTagsInv w2store3 ∧
    TagsInv (addTag ["x"] " y ") ∧
    addTag ["x"] " x " = ["x"] ∧
    TagsInv (removeTag ["x", "y"] "x") := by
  have h := c2_tag_invariants ["a", "a", ""] ["x"] " y " w2store w2store2
    "coding" "review" w2patch w2input
  have h2 := c2_tag_invariants ["a", "a", ""] ["x"] " x " w2store w2store3
    "coding" "review" w2patch w2input
  refine ⟨h.1, h.2.1, ?_, ?_, ?_, ?_, ?_⟩
  · exact h.2.2.1 (by decide) rfl
  · exact h2.2.2.2.1 (by decide) rfl
  · exact h.2.2.2.2.1 (by decide)
  · exact h2.2.2.2.2.2.1 (Or.inr (by decide))
  · have h3 := c2_tag_invariants ["a", "a", ""] ["x", "y"] "x" w2store
      w2store2 "coding" "review" w2patch w2input
    exact h3.2.2.2.2.2.2 (by decide)

def w5r1 : StoredRecord :=
  { name := "review", group := "coding", description := none,
    system_prompt := "s", user_prompt := none, tags := [] }

def w5r2 : StoredRecord :=
  { name := "review", group := "", description := none,
    system_prompt := "s", user_prompt := none, tags := [] }

/-- Witness for C5 at two concrete records sharing a name. -/
theorem c5_group_validation_and_coexistence_witness :
    groupFieldAccepted (some "") = true ∧
    recordKey w5r1 ≠ recordKey w5r2 ∧
    StoreWF [w5r1, w5r2] ∧
    findRecord [w5r1, w5r2] w5r1.group w5r1.name = some w5r1 ∧
    findRecord [w5r1, w5r2] "" w5r2.name = some w5r2 := by
  have h := c5_group_validation_and_coexistence
  have h2 := h.2.2 w5r1 w5r2 rfl (by decide) rfl
  exact ⟨h.2.1, h2.1, h2.2.1, h2.2.2.1, h2.2.2.2⟩

/-- Witness for C6 at a concrete group and name, with the identity
encoder. -/
theorem c6_group_query_param_witness :
    groupTruthy (some "g") = true ∧
    groupTruthy none = false ∧
    groupTruthy (some "") = false ∧
    listPromptsUrl id (some "g") =
      API_BASE_URL ++ "/api/prompts?group=" ++ id ((some "g").getD "") ∧
    getPromptUrl id (some "g") "n" =
      API_BASE_URL ++ "/api/prompts/" ++ id "n" ++ "?group=" ++
        id ((some "g").getD "") ∧
    listPromptsUrl id none = API_BASE_URL ++ "/api/prompts" ∧
    deletePromptUrl id none "n" =
      API_BASE_URL ++ "/api/prompts/" ++ id "n" := by
  have hg := c6_group_query_param id (some "g") "n"
  have hn := c6_group_query_param id none "n"
  exact ⟨rfl, rfl, rfl, (hg.2.2 rfl).1, (hg.2.2 rfl).2.1, (hn.2.1 rfl).1,
    (hn.2.1 rfl).2.2⟩

def w7p1 : Prompt :=
  { name := "a", description := "", system_prompt := "s",
    user_prompt := "", tags := [], group := "g" }

def w7p2 : Prompt :=
  { name := "b", description := "", system_prompt := "s",
    user_prompt := "", tags := [], group := "" }

/-- Witness for C7 at a concrete two-element prompt list. -/
theorem c7_group_filter_witness :
    filteredPrompts [w7p1, w7p2] "" = [w7p1, w7p2] ∧
    (w7p2 ∈ filteredPrompts [w7p1, w7p2] "(root)" ↔
      w7p2 ∈ [w7p1, w7p2] ∧ w7p2.group = "") ∧
    (w7p1 ∈ filteredPrompts [w7p1, w7p2] "g" ↔
      w7p1 ∈ [w7p1, w7p2] ∧ w7p1.group = "g") := by
  have h1 := c7_group_filter [w7p1, w7p2] "" w7p1
  have h2 := c7_group_filter [w7p1, w7p2] "(root)" w7p2
  have h3 := c7_group_filter [w7p1, w7p2] "g" w7p1
  exact ⟨h1.1 rfl, h2.2.1 rfl, h3.2.2.1 (by decide) (by decide)⟩

def w8rec : CodecRecord :=
  { description := "demo", tags := ["a", "b"],
    system_prompt := ["You are helpful.", ""],
    user_prompt := ["Hello there."] }

/-- Witness for C8 at a concrete codec record. -/
theorem c8_codec_round_trip_witness :
    ValidCodecRecord w8rec ∧ decode (encode w8rec) = .ok w8rec :=
  ⟨by decide, c8_codec_round_trip w8rec (by decide)⟩

def w9err : HttpResponse :=
  { ok := false, status := 404,
    parsedBody := some { detail := some (.str "Prompt not found") } }

def w9noContent : HttpResponse :=
  { ok := true, status := 204, parsedBody := none }

def w9body : ParsedJson := { detail := none, message := none }

def w9ok : HttpResponse :=
  { ok := true, status := 200, parsedBody := some w9body }

def w9bad : HttpResponse :=
  { ok := true, status := 200, parsedBody := none }

/-- Witness for C9 at concrete responses. -/
theorem c9_handle_response_witness :
    handleResponse w9err = .error (.apiError 404 "Prompt not found") ∧
    handleResponse w9noContent = .ok .emptyObj ∧
    handleResponse w9ok = .ok (.json w9body) ∧
    handleResponse w9bad = .error .jsonRejection ∧
    thrownStatus (.apiError 404 "Prompt not found") = some 404 := by
  have he := c9_handle_response w9err w9body
  have hn := c9_handle_response w9noContent w9body
  have ho := c9_handle_response w9ok w9body
  have hb := c9_handle_response w9bad w9body
  exact ⟨he.1 rfl, hn.2.1 rfl rfl, ho.2.2.1 rfl (by decide) rfl,
    hb.2.2.2.1 rfl (by decide) rfl, rfl⟩

end PromptButler
